import Mathlib

/-!
Shallow embedding of the resolution-and-retrieval pipeline of
`software/server-software/fetch_tomtom_data.py`: CSV entry pruning
(`pruneCSVEntries`), the two upstream speed sources (`requestTileData`,
`requestSegmentData`), per-target retrieval (`requestSpeeds`), and the
output encodings of `main` and `createAddendum`.

Network traffic is modelled by a `World` mapping each entry to the
response its request would receive (`none` models a transport failure).
Python exceptions are modelled with `Except`; Python floats are modelled
as rationals; `log` calls are modelled where a claim depends on them
(the pruning phase) as an accumulated list of messages.
-/

namespace FetchTomTom

/-- `Direction` enum of the script. -/
inductive Direction
  | NORTH
  | SOUTH
  | UNKNOWN
deriving DecidableEq, BEq, Repr

/-- `SpeedType` enum of the script. -/
inductive SpeedType
  | CURRENT
  | TYPICAL
  | UNKNOWN
deriving DecidableEq, BEq, Repr

/-- One CSV row, after `csv.DictReader`: every field is a string, and a
field whose column is absent reads as Python `None` (here `Option`).
`ledNum` holds `int(entry["LED Number"])`, which every in-scope row has. -/
structure Entry where
  ledNum : Int
  direction : String
  freeway : String
  latitude : Option String
  longitude : Option String
  tile : Option String
  openLrCode : Option String
  reference : Option String
deriving DecidableEq, BEq, Repr

/-- Python exceptions that the modelled code can raise. -/
inductive PyExn
  | typeError
  | valueError
  | jsonDecodeError
  | attributeError
  | protobufDecodeError
deriving DecidableEq, BEq, Repr

/-- A parsed JSON value as Python `response.json()` yields it; only the
shapes the script inspects are distinguished. -/
inductive PyVal
  | pstr (s : String)
  | pint (n : Int)
  | pbool (b : Bool)
  | pdict (fields : List (String × PyVal))
deriving BEq, Repr

/-- Python `dict.get(k, dflt)` on an association list. -/
def dictGet (fields : List (String × PyVal)) (k : String) (dflt : PyVal) : PyVal :=
  match fields.find? (fun p => p.1 == k) with
  | some p => p.2
  | none => dflt

/-- Python `x == s` for a JSON value `x` and a string literal `s`:
only a string compares equal to a string. -/
def PyVal.eqStr : PyVal → String → Bool
  | .pstr t, s => t == s
  | _, _ => false

/-- Accumulate decimal digits; any non-digit character fails. -/
def parseNatDigits : List Char → Nat → Option Nat
  | [], acc => some acc
  | c :: rest, acc =>
    if c.isDigit then parseNatDigits rest (acc * 10 + (c.toNat - 48))
    else none

/-- Strip leading and trailing whitespace from a character list. -/
def trimChars (l : List Char) : List Char :=
  ((l.dropWhile (fun c => c.isWhitespace)).reverse.dropWhile
    (fun c => c.isWhitespace)).reverse

/-- Python `int(str)` returning `none` where Python raises: optional
sign, then one or more decimal digits, surrounding whitespace ignored. -/
def pyParseInt (s : String) : Option Int :=
  match trimChars s.toList with
  | [] => none
  | '-' :: rest =>
    if rest.isEmpty then none
    else (parseNatDigits rest 0).map (fun n => -(n : Int))
  | '+' :: rest =>
    if rest.isEmpty then none
    else (parseNatDigits rest 0).map (fun n => (n : Int))
  | l => (parseNatDigits l 0).map (fun n => (n : Int))

/-- Python `int(x)` on a JSON value; raises `TypeError`/`ValueError` as
Python does on dicts and non-numeric strings. -/
def pyIntOf : PyVal → Except PyExn Int
  | .pint n => .ok n
  | .pbool b => .ok (if b then 1 else 0)
  | .pstr s =>
    match pyParseInt s with
    | some n => .ok n
    | none => .error .valueError
  | .pdict _ => .error .typeError

/-- `getReference`: parse the entry's `Reference` field, `none` when
missing or unparseable (the script catches the exception). -/
def getReference (e : Entry) : Option Int :=
  e.reference.bind pyParseInt

/-- A network request that the script would issue, tagged with the entry
it is issued for. -/
inductive NetRequest
  | tileReq (e : Entry)
  | segReq (e : Entry)
deriving DecidableEq, BEq, Repr

/-- The entry a request was issued for. -/
def reqEntry : NetRequest → Entry
  | .tileReq e => e
  | .segReq e => e

/-- An HTTP response from the flow-segment endpoint: a status code and a
body; `jsonBody = none` models a body that `response.json()` cannot
parse (it raises there). -/
structure SegResponse where
  statusCode : Int
  jsonBody : Option PyVal
deriving Repr

/-- `validEntrySegmentData`: latitude, longitude and openLR code must
all be present. -/
def validEntrySegmentData (e : Entry) : Bool :=
  !(e.latitude.isNone || e.longitude.isNone || e.openLrCode.isNone)

/-- `requestSegmentData`, modelled over the response the request would
get (`resp = none` is a transport failure, caught and turned into -1).
Returns the issued requests together with the result; exceptions that
the Python code would let escape surface as `Except.error`. -/
def requestSegmentData (e : Entry) (st : SpeedType) (resp : Option SegResponse) :
    List NetRequest × Except PyExn Int :=
  if st == SpeedType.UNKNOWN then ([], .error .valueError)
  else if !validEntrySegmentData e then ([], .ok (-1))
  else
    match resp with
    | none => ([.segReq e], .ok (-1))
    | some r =>
      ([.segReq e],
        if r.statusCode != 200 then .ok (-1)
        else
          match r.jsonBody with
          | none => .error .jsonDecodeError
          | some (.pdict top) =>
            match dictGet top "flowSegmentData" (.pdict []) with
            | .pdict d =>
              let closure := dictGet d "roadClosure" (.pstr "false")
              if closure.eqStr "true" && st == SpeedType.CURRENT then .ok 0
              else if closure.eqStr "true" then .ok (-1)
              else
                let rawSpeed :=
                  if st == SpeedType.CURRENT then dictGet d "currentSpeed" (.pint (-1))
                  else dictGet d "freeFlowSpeed" (.pint (-1))
                match pyIntOf rawSpeed with
                | .error ex => .error ex
                | .ok speed =>
                  if speed == -1 then .ok (-1)
                  else
                    let returned := dictGet d "openlr" (.pstr "")
                    if !(returned.eqStr (e.openLrCode.getD "")) then .ok (-1)
                    else .ok speed
            | _ => .error .attributeError
          | some _ => .error .attributeError)

/-- A protobuf `Tile.Value`; the script only asks whether the
`double_value` field is set and reads it. -/
inductive PbValue
  | doubleValue (x : ℚ)
  | otherValue
deriving DecidableEq, BEq, Repr

/-- A protobuf `Tile.Feature`: a flat tag list of interleaved
(key index, value index) pairs. -/
structure PbFeature where
  tags : List Nat
deriving DecidableEq, BEq, Repr

/-- A protobuf `Tile.Layer`. -/
structure PbLayer where
  features : List PbFeature
  keys : List String
  values : List PbValue
deriving DecidableEq, BEq, Repr

/-- A protobuf `Tile`. -/
structure PbTile where
  layers : List PbLayer
deriving DecidableEq, BEq, Repr

/-- An HTTP response from the tile endpoint; `content = none` models a
body on which `ParseFromString` raises a decode error. -/
structure TileResponse where
  statusCode : Int
  content : Option PbTile
deriving Repr

/-- Number of `/` characters in a string (`str.count("/")`). -/
def countSlashes (s : String) : Nat :=
  (s.toList.filter (fun c => c == '/')).length

/-- `validEntryTileData`: the tile identifier must be present and have
exactly two path separators. -/
def validEntryTileData (e : Entry) : Bool :=
  match e.tile with
  | none => false
  | some t => countSlashes t == 2

/-- `zip(*[iter(tags)] * 2)`: consecutive pairs, dropping a dangling
last element. -/
def tagPairs : List Nat → List (Nat × Nat)
  | a :: b :: rest => (a, b) :: tagPairs rest
  | _ => []

/-- Python 3 `round`: round half to even. -/
def pyRound (q : ℚ) : Int :=
  let fl := q.floor
  let frac := q - fl
  if frac < 1 / 2 then fl
  else if 1 / 2 < frac then fl + 1
  else if fl % 2 = 0 then fl else fl + 1

/-- The tile-decoding portion of `requestTileData`: layer count, feature
count, `"traffic_level"` key lookup, pairwise tag scan, value-table read
and km/h-to-mph conversion, with -1 for every structural failure. -/
def parseTileSpeed (tile : PbTile) : Int :=
  if tile.layers.length != 1 then -1
  else
    let layer := tile.layers.getD 0 ⟨[], [], []⟩
    if layer.features.length != 1 then -1
    else
      let feature := layer.features.getD 0 ⟨[]⟩
      match layer.keys.findIdx? (fun k => k == "traffic_level") with
      | none => -1
      | some tlTag =>
        match (tagPairs feature.tags).find? (fun p => p.1 == tlTag) with
        | none => -1
        | some pr =>
          if layer.values.length < pr.2 + 1 then -1
          else
            match layer.values.getD pr.2 PbValue.otherValue with
            | .doubleValue x =>
              let speed := pyRound (x * (621371 / 1000000))
              if speed == -1 then -1 else speed
            | .otherValue => -1

/-- `requestTileData`, modelled over the response the request would get
(`resp = none` is a transport failure, caught and turned into -1). -/
def requestTileData (e : Entry) (resp : Option TileResponse) :
    List NetRequest × Except PyExn Int :=
  if !validEntryTileData e then ([], .ok (-1))
  else
    match resp with
    | none => ([.tileReq e], .ok (-1))
    | some r =>
      ([.tileReq e],
        if r.statusCode != 200 then .ok (-1)
        else
          match r.content with
          | none => .error .protobufDecodeError
          | some tile => .ok (parseTileSpeed tile))

/-- The upstream world: the response each entry's tile or segment
request would receive. -/
structure World where
  tileResp : Entry → Option TileResponse
  segResp : Entry → Option SegResponse

/-- The speed that one iteration of the `requestSpeeds` loop computes
for a target: Special short-circuit, tile source, segment fallback on
-1, then the `fail_with_zero` substitution. -/
def pairSpeed (w : World) (st : SpeedType) (fwz : Bool) (e : Entry) : Except PyExn Int :=
  if e.freeway == "Special" then .ok (-2)
  else
    match (requestTileData e (w.tileResp e)).2 with
    | .error ex => .error ex
    | .ok s1 =>
      match (if s1 == -1 then (requestSegmentData e st (w.segResp e)).2 else .ok s1) with
      | .error ex => .error ex
      | .ok s2 => .ok (if s2 == -1 && fwz then 0 else s2)

/-- The requests one iteration of the `requestSpeeds` loop issues. -/
def pairRequests (w : World) (st : SpeedType) (e : Entry) : List NetRequest :=
  if e.freeway == "Special" then []
  else
    (requestTileData e (w.tileResp e)).1 ++
      (match (requestTileData e (w.tileResp e)).2 with
       | .error _ => []
       | .ok s1 => if s1 == -1 then (requestSegmentData e st (w.segResp e)).1 else [])

/-- The `requestSpeeds` loop over the entry/led pairs. -/
def requestSpeedsAux (w : World) (st : SpeedType) (fwz : Bool) :
    List (Entry × List Int) → List NetRequest × Except PyExn (List (Int × Int))
  | [] => ([], .ok [])
  | (e, leds) :: rest =>
    match pairSpeed w st fwz e with
    | .error ex => (pairRequests w st e, .error ex)
    | .ok s =>
      match requestSpeedsAux w st fwz rest with
      | (tr, .error ex) => (pairRequests w st e ++ tr, .error ex)
      | (tr, .ok out) =>
        (pairRequests w st e ++ tr, .ok (leds.map (fun l => (l, s)) ++ out))

/-- `requestSpeeds`: argument guard, then the retrieval loop. -/
def requestSpeeds (w : World) (pairs : List (Entry × List Int))
    (st : SpeedType) (fwz : Bool) :
    List NetRequest × Except PyExn (List (Int × Int)) :=
  if st == SpeedType.UNKNOWN then ([], .error .valueError)
  else requestSpeedsAux w st fwz pairs

/-- Validation failures of `pruneCSVEntries` (the distinct
`RuntimeError`/`ValueError` raises of the script). -/
inductive PruneErr
  | badArgument
  | duplicateEntry
  | missingEntry
  | badReference
deriving DecidableEq, BEq, Repr

/-- An entry the loop skips because its `Direction` field names the
opposite direction. -/
def skipEntry (e : Entry) (d : Direction) : Bool :=
  (e.direction == "North" && d == Direction.SOUTH) ||
    (e.direction == "South" && d == Direction.NORTH)

/-- The display name Python interpolates for a `Direction`. -/
def dirName : Direction → String
  | .NORTH => "Direction.NORTH"
  | .SOUTH => "Direction.SOUTH"
  | .UNKNOWN => "Direction.UNKNOWN"

/-- Insert a referencing led into the `ref_to_leds` dict, preserving
Python dict insertion order. -/
def refInsert (m : List (Int × List Int)) (r : Int) (led : Int) :
    List (Int × List Int) :=
  match m.find? (fun p => p.1 == r) with
  | none => m ++ [(r, [led])]
  | some _ => m.map (fun p => if p.1 == r then (p.1, p.2 ++ [led]) else p)

/-- State of the first `pruneCSVEntries` loop. -/
structure ScanState where
  ret : List (Entry × List Int)
  refToLeds : List (Int × List Int)
  seenLeds : List Int
  badEntries : Bool
  logs : List String
deriving Repr

/-- One iteration of the first `pruneCSVEntries` loop: direction filter,
duplicate check, then either a non-reference target or a reference
registration (a reference of 0 counts as no reference). -/
def scanStep (d : Direction) (s : ScanState) (e : Entry) : ScanState :=
  if skipEntry e d then s
  else if s.seenLeds.contains e.ledNum then
    { s with
      badEntries := true
      logs := s.logs ++ ["Duplicate LED Number encountered: " ++ toString e.ledNum] }
  else
    let s1 := { s with seenLeds := s.seenLeds ++ [e.ledNum] }
    match getReference e with
    | none => { s1 with ret := s1.ret ++ [(e, [e.ledNum])] }
    | some r =>
      if r == 0 then { s1 with ret := s1.ret ++ [(e, [e.ledNum])] }
      else { s1 with refToLeds := refInsert s1.refToLeds r e.ledNum }

/-- The integers strictly between `a` and `b`, the led numbers the
missing-range walk logs between two consecutive seen leds. -/
def missingBetween (a b : Int) : List Int :=
  (List.range (b - a - 1).toNat).map (fun (i : Nat) => a + 1 + (i : Int))

/-- Walk the sorted seen leds starting after `prev`, collecting every
gap index in log order. -/
def gapsFrom (prev : Int) : List Int → List Int
  | [] => []
  | n :: rest => missingBetween prev n ++ gapsFrom n rest

/-- All gap indices of a sorted led list, in the order the script logs
them. -/
def missingLeds : List Int → List Int
  | [] => []
  | n :: rest => gapsFrom n rest

/-- Fold the referencing leds into the non-reference targets (the third
`pruneCSVEntries` loop): extend each target's led list with the leds
referencing it and delete that key; unresolved keys remain. -/
def attachRefs : List (Entry × List Int) → List (Int × List Int) →
    List (Entry × List Int) × List (Int × List Int)
  | [], m => ([], m)
  | (e, leds) :: rest, m =>
    match m.find? (fun p => p.1 == e.ledNum) with
    | none =>
      let res := attachRefs rest m
      ((e, leds) :: res.1, res.2)
    | some p =>
      let res := attachRefs rest (m.filter (fun q => q.1 != e.ledNum))
      ((e, leds ++ p.2) :: res.1, res.2)

/-- The gap log message of the missing-range walk. -/
def missingMsg (d : Direction) (g : Int) : String :=
  "missing " ++ dirName d ++ " LED " ++ toString g ++ " in csv file"

/-- The log message for an unresolved reference. -/
def badRefMsg (d : Direction) (r : Int) (leds : List Int) : String :=
  "Entries " ++ dirName d ++ " LEDs " ++ toString leds ++
    " reference " ++ toString r ++ " invalidly"

/-- Insertion sort by `≤`, the behaviour of Python `sorted` on ints. -/
def pySortInts (l : List Int) : List Int :=
  l.insertionSort (fun a b => a ≤ b)

/-- `pruneCSVEntries`: returns the accumulated log messages and either
the entry/led pairings or the first fatal validation error, with each
validation category batched (all offenders logged before the raise). -/
def pruneCSVEntries (entries : List Entry) (d : Direction) (allowMissing : Bool) :
    List String × Except PruneErr (List (Entry × List Int)) :=
  if d == Direction.UNKNOWN then ([], .error .badArgument)
  else
    let s := entries.foldl (scanStep d) ⟨[], [], [], false, []⟩
    if s.badEntries then (s.logs, .error .duplicateEntry)
    else
      let gaps := if allowMissing then [] else missingLeds (pySortInts s.seenLeds)
      let logs2 := s.logs ++ gaps.map (fun g => missingMsg d g)
      if gaps.isEmpty then
        let res := attachRefs s.ret s.refToLeds
        let logs3 := logs2 ++ res.2.map (fun p => badRefMsg d p.1 p.2)
        if res.2.isEmpty then (logs3, .ok res.1)
        else (logs3, .error .badReference)
      else (logs2, .error .missingEntry)

/-- Stable sort of (led, speed) rows by led number:
`sorted(speeds, key=lambda ele: ele[0])`. -/
def pySortPairs (l : List (Int × Int)) : List (Int × Int) :=
  l.insertionSort (fun a b => a.1 ≤ b.1)

/-- Python `bytearray(xs)`: succeeds exactly when every element is in
`range(0, 256)`, otherwise raises `ValueError`. -/
def pyBytearray (xs : List Int) : Except PyExn (List Int) :=
  if xs.all (fun x => decide (0 ≤ x) && decide (x < 256)) then .ok xs
  else .error .valueError

/-- The fixed-width binary artifact `main` builds from the assembled
rows: sort by led, take the speeds, replace -1 by 0, prepend the
reserved index-0 byte, and build the byte array. -/
def binaryArtifact (speeds : List (Int × Int)) : Except PyExn (List Int) :=
  let raw := (pySortPairs speeds).map (fun p => p.2)
  let raw2 := raw.map (fun s => if s == -1 then 0 else s)
  pyBytearray (0 :: raw2)

/-- The sorted rows `main` writes to the delimited-text artifact, or
`none` when a pruning failure or an uncaught retrieval exception aborts
the run before the write. `main` prunes with `allow_missing=False` and
retrieves with `fail_with_zero=False`. -/
def mainSpeedsResult (w : World) (entries : List Entry) (d : Direction)
    (st : SpeedType) : Option (List (Int × Int)) :=
  match (pruneCSVEntries entries d false).2 with
  | .error _ => none
  | .ok pairs =>
    match (requestSpeeds w pairs st false).2 with
    | .error _ => none
    | .ok speeds => some (pySortPairs speeds)

/-- A completed `main` run (return value `True`): the sorted text rows
together with the binary bytes; `none` when any uncaught exception,
including a `bytearray` failure, aborts the run. -/
def mainRun (w : World) (entries : List Entry) (d : Direction)
    (st : SpeedType) : Option (List (Int × Int) × List Int) :=
  match mainSpeedsResult w entries d st with
  | none => none
  | some speeds =>
    match binaryArtifact speeds with
    | .error _ => none
    | .ok bytes => some (speeds, bytes)

/-- The rows `createAddendum` writes after its metadata line, or `none`
when its catch-all except suppresses the write. It prunes with
`allow_missing=True`, retrieves with `fail_with_zero=False`, and writes
the rows in retrieval order without sorting. -/
def addendumRows (w : World) (entries : List Entry) (d : Direction)
    (st : SpeedType) : Option (List (Int × Int)) :=
  match (pruneCSVEntries entries d true).2 with
  | .error _ => none
  | .ok pairs =>
    match (requestSpeeds w pairs st false).2 with
    | .error _ => none
    | .ok speeds => some speeds

/-- The value of a successful `pairSpeed`, defaulting to 0 on an
exception (used only to state the shape of successful outputs). -/
def pairSpeedD (w : World) (st : SpeedType) (fwz : Bool) (e : Entry) : Int :=
  match pairSpeed w st fwz e with
  | .ok s => s
  | .error _ => 0

/-- Expansion of entry/led pairs into (led, speed) rows with a given
per-entry speed, in loop order. -/
def expandPairs (f : Entry → Int) : List (Entry × List Int) → List (Int × Int)
  | [] => []
  | (e, leds) :: rest => leds.map (fun l => (l, f e)) ++ expandPairs f rest

/-- All led numbers bound across a pairing list, in order. -/
def pairsLeds : List (Entry × List Int) → List Int
  | [] => []
  | p :: rest => p.2 ++ pairsLeds rest

/-- The entries the pruning loop does not skip for direction `d`. -/
def activeEntries (entries : List Entry) (d : Direction) : List Entry :=
  entries.filter (fun e => !skipEntry e d)

/-- An entry that is its own canonical target: no reference, or a
reference of 0. -/
def nonAliasing (e : Entry) : Bool :=
  match getReference e with
  | none => true
  | some r => r == 0

/-- A reference value `r` is offending for `entries` and `d` when some
active entry carries it as a non-zero reference and no active
non-aliasing entry has led number `r` (dangling reference, or chained
aliasing through an entry that itself references). -/
def OffendingRef (entries : List Entry) (d : Direction) (r : Int) : Prop :=
  (∃ e ∈ activeEntries entries d, getReference e = some r ∧ r ≠ 0) ∧
    ¬∃ e ∈ activeEntries entries d, e.ledNum = r ∧ nonAliasing e = true

/-- A gap of the active direction: an index absent from the active led
numbers yet strictly between two of them. -/
def GapIndex (entries : List Entry) (d : Direction) (g : Int) : Prop :=
  g ∉ (activeEntries entries d).map Entry.ledNum ∧
    (∃ a ∈ (activeEntries entries d).map Entry.ledNum, a < g) ∧
    (∃ b ∈ (activeEntries entries d).map Entry.ledNum, g < b)

/-- A typical complete northbound entry. -/
def sampleEntry : Entry :=
  { ledNum := 1, direction := "North", freeway := "I-5",
    latitude := some "33.94", longitude := some "-118.40",
    tile := some "12/701/1635", openLrCode := some "CwNhOyUM",
    reference := none }

/-- A second northbound entry. -/
def sampleEntry2 : Entry :=
  { sampleEntry with ledNum := 2 }

/-- A northbound entry with no tile identifier (only the segment source
is structurally available for it). -/
def noTileEntry : Entry :=
  { sampleEntry with tile := none }

/-- A second entry with no tile identifier. -/
def noTileEntry2 : Entry :=
  { noTileEntry with ledNum := 2 }

/-- A northbound `Special` entry. -/
def specialEntry : Entry :=
  { sampleEntry with freeway := "Special" }

/-- The world where every request suffers a transport failure. -/
def noNetWorld : World :=
  ⟨fun _ => none, fun _ => none⟩

/-- The world where every segment request yields HTTP 200 with a body
that is not valid JSON. -/
def badBodyWorld : World :=
  ⟨fun _ => none, fun _ => some ⟨200, none⟩⟩

/-- A 200 segment response flagging a road closure. -/
def closureResp : SegResponse :=
  ⟨200, some (.pdict [("flowSegmentData",
    .pdict [("roadClosure", .pstr "true")])])⟩

/-- A 200 segment response flagging a road closure whose echoed openLR
code differs from `sampleEntry`'s expected code. -/
def mismatchClosureResp : SegResponse :=
  ⟨200, some (.pdict [("flowSegmentData",
    .pdict [("roadClosure", .pstr "true"), ("currentSpeed", .pint 42),
            ("openlr", .pstr "MISMATCH")])])⟩

/-- A 200 segment response with no closure whose echoed openLR code
differs from `sampleEntry`'s expected code. -/
def mismatchResp : SegResponse :=
  ⟨200, some (.pdict [("flowSegmentData",
    .pdict [("currentSpeed", .pint 42), ("openlr", .pstr "MISMATCH")])])⟩

/-- A well-formed single-layer tile whose traffic level is 100 km/h. -/
def sampleTile : PbTile :=
  ⟨[⟨[⟨[0, 1]⟩], ["traffic_level"], [PbValue.otherValue, PbValue.doubleValue 100]⟩]⟩

/-- A two-layer tile, each layer otherwise well-formed. -/
def twoLayerTile : PbTile :=
  ⟨[⟨[⟨[0, 0]⟩], ["traffic_level"], [PbValue.doubleValue 50]⟩,
    ⟨[⟨[0, 0]⟩], ["traffic_level"], [PbValue.doubleValue 50]⟩]⟩

/-- The world where every tile request returns `twoLayerTile` and every
segment request suffers a transport failure. -/
def twoLayerWorld : World :=
  ⟨fun _ => some ⟨200, some twoLayerTile⟩, fun _ => none⟩

/-- Northbound entries with led numbers 1, 2 and 4: a gap at 3. -/
def gapEntries : List Entry :=
  [sampleEntry, sampleEntry2, { sampleEntry with ledNum := 4 }]

/-- Northbound entries where led 2 dangles (references absent led 5)
and led 3 chains (references aliasing led 2). -/
def badRefEntries : List Entry :=
  [sampleEntry,
   { sampleEntry with ledNum := 2, reference := some "5" },
   { sampleEntry with ledNum := 3, reference := some "2" }]

/-! ### Theorems -/

/-- C1: the binary encoder maps only the unknown sentinel -1 to byte 0
(line 565); the excluded sentinel -2 reaches `bytearray`, which raises
`ValueError`, so a run whose assembled rows hold a -2 never completes —
the claim that both sentinels are mapped to byte 0 fails on the code.
The second conjunct shows -1 is normalized to 0 with the index-0 pad. -/
theorem binary_excluded_sentinel_crashes :
    binaryArtifact [(1, -2), (2, -2)] = .error .valueError ∧
      binaryArtifact [(2, 30), (1, -1)] = .ok [0, 0, 30] :=
  ⟨rfl, rfl⟩

/-- C2: a segment response with HTTP status 200 whose body is not
parseable JSON makes `response.json()` raise outside any handler; the
exception escapes `requestSegmentData` and `requestSpeeds`, so the
second target is never processed, contradicting the never-raise,
degrade-and-continue claim. -/
theorem malformed_body_raises_through_requestSpeeds :
    (requestSpeeds badBodyWorld [(noTileEntry, [1]), (noTileEntry2, [2])]
        SpeedType.CURRENT false).2 = .error .jsonDecodeError :=
  rfl

/-- C3 counterexample: a response that both flags a road closure and
echoes a mismatching openLR code yields speed 0 under the CURRENT
metric — not the unknown sentinel -1 the claim demands — because the
closure check precedes the reference-code check. -/
theorem closure_overrides_mismatch_counterexample :
    (requestSegmentData sampleEntry SpeedType.CURRENT
        (some mismatchClosureResp)).2 = .ok 0 ∧
      (Except.ok 0 : Except PyExn Int) ≠ .ok (-1) :=
  ⟨rfl, by simp⟩

/-- C4 counterexample: `createAddendum` writes the `requestSpeeds` rows
without sorting, so a supplementary input whose entries arrive in
descending index order produces addendum rows that are not ascending. -/
theorem addendum_rows_unsorted_counterexample :
    addendumRows noNetWorld [{ specialEntry with ledNum := 2 }, specialEntry]
        Direction.NORTH SpeedType.CURRENT = some [(2, -2), (1, -2)] ∧
      ¬ List.Sorted (fun a b : Int × Int => a.1 ≤ b.1) [(2, -2), (1, -2)] :=
  ⟨rfl, by simp [List.Sorted]⟩

/-- C9: a segment response that flags a road closure yields speed 0 for
the CURRENT metric and the unknown sentinel -1 for TYPICAL, before any
metric field or reference code is consulted. -/
theorem closure_speed_by_metric (e : Entry) (r : SegResponse)
    (top d : List (String × PyVal))
    (hv : validEntrySegmentData e = true)
    (hsc : r.statusCode = 200)
    (hb : r.jsonBody = some (.pdict top))
    (hfs : dictGet top "flowSegmentData" (.pdict []) = .pdict d)
    (hcl : (dictGet d "roadClosure" (.pstr "false")).eqStr "true" = true) :
    (requestSegmentData e SpeedType.CURRENT (some r)).2 = .ok 0 ∧
      (requestSegmentData e SpeedType.TYPICAL (some r)).2 = .ok (-1) := by
  constructor <;> simp [requestSegmentData, hv, hsc, hb, hfs, hcl] <;> rfl

/-- Witness for `closure_speed_by_metric` at a concrete entry and
response. -/
theorem closure_speed_by_metric_witness :
    (requestSegmentData sampleEntry SpeedType.CURRENT (some closureResp)).2 = .ok 0 ∧
      (requestSegmentData sampleEntry SpeedType.TYPICAL (some closureResp)).2 = .ok (-1) :=
  closure_speed_by_metric sampleEntry closureResp
    [("flowSegmentData", .pdict [("roadClosure", .pstr "true")])]
    [("roadClosure", .pstr "true")] rfl rfl rfl rfl rfl

/-- The tile request function issues at most the single tile request
tagged with its entry. -/
theorem requestTileData_trace (e : Entry) (r : Option TileResponse) :
    (requestTileData e r).1 = [] ∨ (requestTileData e r).1 = [.tileReq e] := by
  unfold requestTileData
  split
  · exact Or.inl rfl
  · cases r <;> simp

/-- The segment request function issues at most the single segment
request tagged with its entry. -/
theorem requestSegmentData_trace (e : Entry) (st : SpeedType) (r : Option SegResponse) :
    (requestSegmentData e st r).1 = [] ∨ (requestSegmentData e st r).1 = [.segReq e] := by
  unfold requestSegmentData
  split
  · exact Or.inl rfl
  · split
    · exact Or.inl rfl
    · cases r <;> simp

/-- Every request one loop iteration issues is tagged with a non-Special
entry (the Special branch issues none, the other branch only requests
for its own entry). -/
theorem mem_pairRequests_nonspecial (w : World) (st : SpeedType) (e : Entry)
    (req : NetRequest) (h : req ∈ pairRequests w st e) :
    ((reqEntry req).freeway == "Special") = false := by
  by_cases hs : (e.freeway == "Special") = true
  · simp [pairRequests, hs] at h
  · have he : reqEntry req = e := by
      rw [pairRequests, if_neg (by simp [hs])] at h
      rcases List.mem_append.mp h with h1 | h2
      · rcases requestTileData_trace e (w.tileResp e) with ht | ht <;>
          rw [ht] at h1 <;> simp_all [reqEntry]
      · cases hE : (requestTileData e (w.tileResp e)).2 with
        | error ex => rw [hE] at h2; simp at h2
        | ok s1 =>
          rw [hE] at h2
          by_cases h1 : s1 = -1 <;> simp [h1] at h2
          rcases requestSegmentData_trace e st (w.segResp e) with ht | ht <;>
            rw [ht] at h2 <;> simp_all [reqEntry]
    rw [he]
    simpa using hs

/-- A successful retrieval loop returns exactly the expansion of each
pair's led list with that pair's computed speed, in loop order. -/
theorem requestSpeedsAux_ok_eq (w : World) (st : SpeedType) (fwz : Bool) :
    ∀ (pairs : List (Entry × List Int)) (out : List (Int × Int)),
      (requestSpeedsAux w st fwz pairs).2 = .ok out →
      out = expandPairs (pairSpeedD w st fwz) pairs
  | [], out => by
    intro h
    simpa [requestSpeedsAux, expandPairs] using h.symm
  | (e, leds) :: rest, out => by
    intro h
    rw [requestSpeedsAux] at h
    cases h0 : pairSpeed w st fwz e with
    | error ex => rw [h0] at h; simp at h
    | ok s =>
      rw [h0] at h
      cases hrec : requestSpeedsAux w st fwz rest with
      | mk tr res =>
        cases res with
        | error ex => rw [hrec] at h; simp at h
        | ok out2 =>
          rw [hrec] at h
          simp only [] at h
          have hout2 := requestSpeedsAux_ok_eq w st fwz rest out2 (by rw [hrec])
          have hd : pairSpeedD w st fwz e = s := by simp [pairSpeedD, h0]
          cases h
          simp [expandPairs, hd, hout2]

/-- Membership in an expansion: a row (l, s) appears exactly when some
pair binds led l and s is that pair's speed. -/
theorem expandPairs_mem (f : Entry → Int) :
    ∀ (pairs : List (Entry × List Int)) (l s : Int),
      (l, s) ∈ expandPairs f pairs ↔ ∃ p ∈ pairs, l ∈ p.2 ∧ s = f p.1
  | [], l, s => by simp [expandPairs]
  | (e, leds) :: rest, l, s => by
    simp only [expandPairs, List.mem_append, List.mem_map, List.mem_cons,
      expandPairs_mem f rest l s]
    constructor
    · rintro (⟨l0, hl0, heq⟩ | ⟨p, hp, hlp, hs⟩)
      · injection heq with h1 h2
        exact ⟨(e, leds), Or.inl rfl, h1 ▸ hl0, h2.symm⟩
      · exact ⟨p, Or.inr hp, hlp, hs⟩
    · rintro ⟨p, hp | hp, hlp, hs⟩
      · subst hp; exact Or.inl ⟨l, hlp, by rw [hs]⟩
      · exact Or.inr ⟨p, hp, hlp, hs⟩

/-- Membership in the concatenated led lists of a pairing. -/
theorem mem_pairsLeds :
    ∀ (pairs : List (Entry × List Int)) (l : Int),
      l ∈ pairsLeds pairs ↔ ∃ p ∈ pairs, l ∈ p.2
  | [], l => by simp [pairsLeds]
  | p :: rest, l => by
    simp [pairsLeds, mem_pairsLeds rest l]

/-- When every led is bound by only one pair, the speed recorded for a
led of a given pair is that pair's speed. -/
theorem expandPairs_unique (f : Entry → Int) :
    ∀ (pairs : List (Entry × List Int)) (e : Entry) (leds : List Int) (l s : Int),
      (pairsLeds pairs).Nodup → (e, leds) ∈ pairs → l ∈ leds →
      (l, s) ∈ expandPairs f pairs → s = f e
  | [], e, leds, l, s => by simp
  | (e0, leds0) :: rest, e, leds, l, s => by
    intro hnd hp hl hmem
    rw [pairsLeds, List.nodup_append] at hnd
    obtain ⟨hnd0, hndr, hdisj⟩ := hnd
    rcases List.mem_cons.mp hp with hp0 | hpr
    · rcases List.mem_append.mp hmem with hm0 | hmr
      · obtain ⟨l0, _, heq⟩ := List.mem_map.mp hm0
        cases hp0
        injection heq with h1 h2
        exact h2.symm
      · cases hp0
        obtain ⟨p, hpr2, hlp, _⟩ := (expandPairs_mem f rest l s).mp hmr
        exact absurd ((mem_pairsLeds rest l).mpr ⟨p, hpr2, hlp⟩) (hdisj hl)
    · rcases List.mem_append.mp hmem with hm0 | hmr
      · obtain ⟨l0, hl0, heq⟩ := List.mem_map.mp hm0
        injection heq with h1 h2
        rw [h1] at hl0
        exact absurd ((mem_pairsLeds rest l).mpr ⟨(e, leds), hpr, hl⟩) (hdisj hl0)
      · exact expandPairs_unique f rest e leds l s hndr hpr hl hmr

/-- A successful `requestSpeeds` means the speed type was not UNKNOWN. -/
theorem requestSpeeds_ok_st (w : World) (pairs : List (Entry × List Int))
    (st : SpeedType) (fwz : Bool) (out : List (Int × Int))
    (hok : (requestSpeeds w pairs st fwz).2 = .ok out) :
    (st == SpeedType.UNKNOWN) = false := by
  by_cases h : (st == SpeedType.UNKNOWN) = true
  · rw [requestSpeeds, if_pos h] at hok; simp at hok
  · simpa using h

/-- C8: a Special target contributes the excluded sentinel -2 for every
led bound to it, and every network request ever issued belongs to a
non-Special entry — Special targets trigger no network access. -/
theorem special_entries_excluded (w : World) (pairs : List (Entry × List Int))
    (st : SpeedType) (fwz : Bool) :
    (∀ out, (requestSpeeds w pairs st fwz).2 = .ok out →
      ∀ e leds, (e, leds) ∈ pairs → (e.freeway == "Special") = true →
        ∀ l ∈ leds, (l, -2) ∈ out) ∧
    (∀ req ∈ (requestSpeeds w pairs st fwz).1,
      ((reqEntry req).freeway == "Special") = false) := by
  constructor
  · intro out hok e leds hp hsp l hl
    have hst := requestSpeeds_ok_st w pairs st fwz out hok
    rw [requestSpeeds, if_neg (by simp [hst])] at hok
    have hexp := requestSpeedsAux_ok_eq w st fwz pairs out hok
    have hd : pairSpeedD w st fwz e = -2 := by simp [pairSpeedD, pairSpeed, hsp]
    rw [hexp]
    exact (expandPairs_mem _ pairs l (-2)).mpr ⟨(e, leds), hp, hl, hd.symm⟩
  · intro req hreq
    by_cases hst : (st == SpeedType.UNKNOWN) = true
    · rw [requestSpeeds, if_pos hst] at hreq; simp at hreq
    · rw [requestSpeeds, if_neg hst] at hreq
      clear hst
      induction pairs with
      | nil => simp [requestSpeedsAux] at hreq
      | cons p rest ih =>
        obtain ⟨e0, leds0⟩ := p
        rw [requestSpeedsAux] at hreq
        cases h0 : pairSpeed w st fwz e0 with
        | error ex =>
          rw [h0] at hreq
          exact mem_pairRequests_nonspecial w st e0 req hreq
        | ok s =>
          rw [h0] at hreq
          cases hrec : requestSpeedsAux w st fwz rest with
          | mk tr res =>
            rw [hrec] at hreq
            cases res with
            | error ex =>
              rcases List.mem_append.mp hreq with h1 | h2
              · exact mem_pairRequests_nonspecial w st e0 req h1
              · exact ih (by rw [hrec]; exact h2)
            | ok out2 =>
              rcases List.mem_append.mp hreq with h1 | h2
              · exact mem_pairRequests_nonspecial w st e0 req h1
              · exact ih (by rw [hrec]; exact h2)

/-- Witness for `special_entries_excluded`: a Special target bound to
leds 1 and 2 yields (1, -2) and (2, -2) with no request issued. -/
theorem special_entries_excluded_witness :
    ((1 : Int), (-2 : Int)) ∈ [((1 : Int), (-2 : Int)), (2, -2)] ∧
      (requestSpeeds noNetWorld [(specialEntry, [1, 2])] SpeedType.CURRENT false).1 = [] :=
  ⟨(special_entries_excluded noNetWorld [(specialEntry, [1, 2])]
      SpeedType.CURRENT false).1 [(1, -2), (2, -2)] rfl specialEntry [1, 2]
      (by simp) rfl 1 (by simp), rfl⟩

/-- C5: a tile payload with exactly one layer and one feature whose
`"traffic_level"` key resolves through the tag pairs to a value-table
double X decodes to `round(X * 0.621371)`; any layer count other than
one yields -1 regardless of content; and a -1 from a two-layer tile
makes the loop consult the segment source for that entry. -/
theorem tile_decode_spec :
    (∀ (tile : PbTile) (layer : PbLayer) (feature : PbFeature) (k v : Nat) (x : ℚ),
      tile.layers = [layer] →
      layer.features = [feature] →
      layer.keys.findIdx? (fun s => s == "traffic_level") = some k →
      (tagPairs feature.tags).find? (fun p => p.1 == k) = some (k, v) →
      v + 1 ≤ layer.values.length →
      layer.values.getD v PbValue.otherValue = PbValue.doubleValue x →
      parseTileSpeed tile = pyRound (x * (621371 / 1000000))) ∧
    (∀ tile : PbTile, tile.layers.length ≠ 1 → parseTileSpeed tile = -1) ∧
    (∀ (w : World) (st : SpeedType) (e : Entry) (leds : List Int) (fwz : Bool)
        (tile : PbTile),
      (st == SpeedType.UNKNOWN) = false →
      (e.freeway == "Special") = false →
      validEntryTileData e = true →
      validEntrySegmentData e = true →
      w.tileResp e = some ⟨200, some tile⟩ →
      tile.layers.length = 2 →
      NetRequest.segReq e ∈ (requestSpeeds w [(e, leds)] st fwz).1) := by
  refine ⟨?_, ?_, ?_⟩
  · intro tile layer feature k v x h1 h2 h3 h4 h5 h6
    have hlen : ¬ (layer.values.length < v + 1) := by omega
    have h6' : (layer.values[v]?).getD PbValue.otherValue = PbValue.doubleValue x := by
      simpa [List.getD] using h6
    by_cases hs : pyRound (x * (621371 / 1000000)) = -1 <;>
      simp [parseTileSpeed, h1, h2, h3, h4, h6', hlen, hs]
  · intro tile h
    simp [parseTileSpeed, h]
  · intro w st e leds fwz tile hst hsp hvt hvs hw hlen
    have hp : parseTileSpeed tile = -1 := by simp [parseTileSpeed, hlen]
    have htile : requestTileData e (w.tileResp e) = ([.tileReq e], .ok (-1)) := by
      simp [requestTileData, hvt, hw, hp]
    have hseg : NetRequest.segReq e ∈ (requestSegmentData e st (w.segResp e)).1 := by
      cases hr : w.segResp e <;> simp [requestSegmentData, hst, hvs, hr]
    have hpr : NetRequest.segReq e ∈ pairRequests w st e := by
      rw [pairRequests, if_neg (by simp [hsp]), htile]
      simpa using hseg
    rw [requestSpeeds, if_neg (by simp [hst]), requestSpeedsAux]
    cases hres : pairSpeed w st fwz e with
    | error ex => simpa using hpr
    | ok s => simpa [requestSpeedsAux] using hpr

/-- Witness for `tile_decode_spec`: a 100 km/h single-layer tile decodes
to 62 mph, a two-layer tile decodes to -1, and the two-layer world makes
the loop consult the segment source. -/
theorem tile_decode_spec_witness :
    parseTileSpeed sampleTile = pyRound (100 * (621371 / 1000000)) ∧
      parseTileSpeed twoLayerTile = -1 ∧
      NetRequest.segReq sampleEntry ∈
        (requestSpeeds twoLayerWorld [(sampleEntry, [1])] SpeedType.CURRENT false).1 :=
  ⟨tile_decode_spec.1 sampleTile
      ⟨[⟨[0, 1]⟩], ["traffic_level"], [PbValue.otherValue, PbValue.doubleValue 100]⟩
      ⟨[0, 1]⟩ 0 1 100 rfl rfl rfl rfl (by decide) rfl,
   tile_decode_spec.2.1 twoLayerTile (by decide),
   tile_decode_spec.2.2 twoLayerWorld SpeedType.CURRENT sampleEntry [1] false
      twoLayerTile rfl rfl rfl rfl rfl rfl⟩

/-- A tile transport failure always degrades to -1. -/
theorem requestTileData_noResp (e : Entry) :
    (requestTileData e none).2 = .ok (-1) := by
  unfold requestTileData
  split <;> rfl

/-- A segment transport failure always degrades to -1 (for a known
speed type). -/
theorem requestSegmentData_noResp (e : Entry) (st : SpeedType)
    (hst : (st == SpeedType.UNKNOWN) = false) :
    (requestSegmentData e st none).2 = .ok (-1) := by
  rw [requestSegmentData, if_neg (by simp [hst])]
  split <;> rfl

/-- When both sources suffer transport failures, a non-Special target's
speed under `fail_with_zero=False` is the unknown sentinel -1. -/
theorem pairSpeed_bothFail (w : World) (st : SpeedType) (e : Entry)
    (hst : (st == SpeedType.UNKNOWN) = false)
    (hsp : (e.freeway == "Special") = false)
    (ht : w.tileResp e = none) (hs : w.segResp e = none) :
    pairSpeed w st false e = .ok (-1) := by
  rw [pairSpeed, if_neg (by simp [hsp]), ht, requestTileData_noResp]
  simp only []
  rw [if_pos (by simp), hs, requestSegmentData_noResp e st hst]
  rfl

/-- Rows produced by a successful `requestSpeeds` with
`fail_with_zero=False` for a target whose two sources both fail: every
bound led appears with speed -1, and — when no led is bound twice —
only with speed -1. -/
theorem requestSpeeds_bothFail_mem (w : World) (pairs : List (Entry × List Int))
    (st : SpeedType) (out : List (Int × Int)) (e : Entry) (leds : List Int)
    (hok : (requestSpeeds w pairs st false).2 = .ok out)
    (hp : (e, leds) ∈ pairs)
    (hsp : (e.freeway == "Special") = false)
    (ht : w.tileResp e = none) (hs : w.segResp e = none) :
    ∀ l ∈ leds, (l, -1) ∈ out ∧
      ((pairsLeds pairs).Nodup → ∀ s, (l, s) ∈ out → s = -1) := by
  intro l hl
  have hst := requestSpeeds_ok_st w pairs st false out hok
  rw [requestSpeeds, if_neg (by simp [hst])] at hok
  have hexp := requestSpeedsAux_ok_eq w st false pairs out hok
  have hps := pairSpeed_bothFail w st e hst hsp ht hs
  have hd : pairSpeedD w st false e = -1 := by simp [pairSpeedD, hps]
  subst hexp
  refine ⟨(expandPairs_mem _ pairs l (-1)).mpr ⟨(e, leds), hp, hl, hd.symm⟩, ?_⟩
  intro hnd s hmem
  have := expandPairs_unique (pairSpeedD w st false) pairs e leds l s hnd hp hl hmem
  rw [this, hd]

/-- C10: `main` and `createAddendum` both retrieve with
`fail_with_zero=False` (see `mainSpeedsResult` and `addendumRows`), so a
target whose tile and segment sources both fail contributes the unknown
sentinel -1 — never 0 — for each of its leds, in the full-refresh rows
and in the addendum rows alike. -/
theorem both_sources_fail_unknown (w : World) (entries : List Entry)
    (d : Direction) (st : SpeedType) (pairs : List (Entry × List Int))
    (e : Entry) (leds : List Int)
    (hp : (e, leds) ∈ pairs)
    (hsp : (e.freeway == "Special") = false)
    (ht : w.tileResp e = none) (hs : w.segResp e = none) :
    (∀ rows, (pruneCSVEntries entries d false).2 = .ok pairs →
      mainSpeedsResult w entries d st = some rows →
      ∀ l ∈ leds, (l, -1) ∈ rows ∧
        ((pairsLeds pairs).Nodup → ∀ s, (l, s) ∈ rows → s = -1)) ∧
    (∀ rows, (pruneCSVEntries entries d true).2 = .ok pairs →
      addendumRows w entries d st = some rows →
      ∀ l ∈ leds, (l, -1) ∈ rows ∧
        ((pairsLeds pairs).Nodup → ∀ s, (l, s) ∈ rows → s = -1)) := by
  constructor
  · intro rows hprune hmain l hl
    rw [mainSpeedsResult, hprune] at hmain
    have hmain2 : (match (requestSpeeds w pairs st false).2 with
        | Except.error _ => none
        | Except.ok speeds => some (pySortPairs speeds)) = some rows := hmain
    cases hok : (requestSpeeds w pairs st false).2 with
    | error ex => rw [hok] at hmain2; simp at hmain2
    | ok speeds =>
      rw [hok] at hmain2
      simp only [Option.some.injEq] at hmain2
      subst hmain2
      have hperm : List.Perm (pySortPairs speeds) speeds := List.perm_insertionSort _ _
      have hbase := requestSpeeds_bothFail_mem w pairs st speeds e leds hok hp hsp ht hs l hl
      exact ⟨hperm.mem_iff.mpr hbase.1,
        fun hnd s hmem => hbase.2 hnd s (hperm.mem_iff.mp hmem)⟩
  · intro rows hprune hadd l hl
    rw [addendumRows, hprune] at hadd
    have hadd2 : (match (requestSpeeds w pairs st false).2 with
        | Except.error _ => none
        | Except.ok speeds => some speeds) = some rows := hadd
    cases hok : (requestSpeeds w pairs st false).2 with
    | error ex => rw [hok] at hadd2; simp at hadd2
    | ok speeds =>
      rw [hok] at hadd2
      simp only [Option.some.injEq] at hadd2
      subst hadd2
      exact requestSpeeds_bothFail_mem w pairs st speeds e leds hok hp hsp ht hs l hl

/-- Witness for `both_sources_fail_unknown` at a concrete input: leds 1
and 2 (led 2 aliasing led 1's entry) both receive -1 when the whole
network is down, in the main rows and the addendum rows. -/
theorem both_sources_fail_unknown_witness :
    ((1 : Int), (-1 : Int)) ∈ [((1 : Int), (-1 : Int)), (2, -1)] ∧
      ((2 : Int), (-1 : Int)) ∈ [((1 : Int), (-1 : Int)), (2, -1)] := by
  have h := both_sources_fail_unknown noNetWorld
      [sampleEntry, { sampleEntry2 with reference := some "1" }]
      Direction.NORTH SpeedType.CURRENT [(sampleEntry, [1, 2])]
      sampleEntry [1, 2] (by simp) rfl rfl rfl
  refine ⟨(h.1 [(1, -1), (2, -1)] (by rfl) (by rfl) 1 (by simp)).1,
    (h.2 [(1, -1), (2, -1)] (by rfl) (by rfl) 2 (by simp)).1⟩

/-- C3 amended: a mismatching echoed openLR code yields the unknown
sentinel -1 whenever the response does not flag a road closure (and the
payload otherwise parses); when a closure is flagged the closure rule is
applied first and the reference code is never consulted, so a CURRENT
request yields 0 and a TYPICAL request -1 even on a mismatch. -/
theorem openlr_mismatch_amended :
    (∀ (e : Entry) (st : SpeedType) (r : SegResponse)
        (top d : List (String × PyVal)) (n : Int),
      (st == SpeedType.UNKNOWN) = false →
      validEntrySegmentData e = true →
      r.statusCode = 200 →
      r.jsonBody = some (.pdict top) →
      dictGet top "flowSegmentData" (.pdict []) = .pdict d →
      (dictGet d "roadClosure" (.pstr "false")).eqStr "true" = false →
      (if st == SpeedType.CURRENT then dictGet d "currentSpeed" (.pint (-1))
        else dictGet d "freeFlowSpeed" (.pint (-1))) = .pint n →
      (dictGet d "openlr" (.pstr "")).eqStr (e.openLrCode.getD "") = false →
      (requestSegmentData e st (some r)).2 = .ok (-1)) ∧
    (∀ (e : Entry) (r : SegResponse) (top d : List (String × PyVal)),
      validEntrySegmentData e = true →
      r.statusCode = 200 →
      r.jsonBody = some (.pdict top) →
      dictGet top "flowSegmentData" (.pdict []) = .pdict d →
      (dictGet d "roadClosure" (.pstr "false")).eqStr "true" = true →
      (requestSegmentData e SpeedType.CURRENT (some r)).2 = .ok 0 ∧
        (requestSegmentData e SpeedType.TYPICAL (some r)).2 = .ok (-1)) := by
  constructor
  · intro e st r top d n hst hv hsc hb hfs hnc hspd hmm
    rw [requestSegmentData, if_neg (by simp [hst]), if_neg (by simp [hv])]
    simp only [hsc, hb, hfs]
    by_cases hn : n = -1 <;>
      simp [hnc, hspd, hmm, pyIntOf, hn]
  · intro e r top d hv hsc hb hfs hcl
    constructor <;> simp [requestSegmentData, hv, hsc, hb, hfs, hcl] <;> rfl

/-- Witness for `openlr_mismatch_amended` at a concrete entry and
responses (mismatch without closure; closure with mismatch). -/
theorem openlr_mismatch_amended_witness :
    (requestSegmentData sampleEntry SpeedType.CURRENT (some mismatchResp)).2 = .ok (-1) ∧
      (requestSegmentData sampleEntry SpeedType.CURRENT (some mismatchClosureResp)).2 = .ok 0 :=
  ⟨openlr_mismatch_amended.1 sampleEntry SpeedType.CURRENT mismatchResp
      [("flowSegmentData", .pdict [("currentSpeed", .pint 42), ("openlr", .pstr "MISMATCH")])]
      [("currentSpeed", .pint 42), ("openlr", .pstr "MISMATCH")] 42
      rfl rfl rfl rfl rfl rfl rfl rfl,
   (openlr_mismatch_amended.2 sampleEntry mismatchClosureResp
      [("flowSegmentData", .pdict [("roadClosure", .pstr "true"), ("currentSpeed", .pint 42),
        ("openlr", .pstr "MISMATCH")])]
      [("roadClosure", .pstr "true"), ("currentSpeed", .pint 42), ("openlr", .pstr "MISMATCH")]
      rfl rfl rfl rfl rfl).1⟩

instance : IsTotal (Int × Int) (fun a b : Int × Int => a.1 ≤ b.1) :=
  ⟨fun a b => Int.le_total a.1 b.1⟩

instance : IsTrans (Int × Int) (fun a b : Int × Int => a.1 ≤ b.1) :=
  ⟨fun _ _ _ h1 h2 => le_trans h1 h2⟩

/-- C4 amended: the full-refresh rows `main` writes are always sorted
ascending by led number, whatever order retrieval produced them in; the
addendum rows are written in retrieval order and are not sorted (see the
counterexample). -/
theorem main_rows_sorted (w : World) (entries : List Entry) (d : Direction)
    (st : SpeedType) (rows : List (Int × Int))
    (h : mainSpeedsResult w entries d st = some rows) :
    List.Sorted (fun a b : Int × Int => a.1 ≤ b.1) rows := by
  rw [mainSpeedsResult] at h
  cases hpr : (pruneCSVEntries entries d false).2 with
  | error ex => rw [hpr] at h; simp at h
  | ok pairs =>
    rw [hpr] at h
    have h2 : (match (requestSpeeds w pairs st false).2 with
        | Except.error _ => none
        | Except.ok speeds => some (pySortPairs speeds)) = some rows := h
    cases hok : (requestSpeeds w pairs st false).2 with
    | error ex => rw [hok] at h2; simp at h2
    | ok speeds =>
      rw [hok] at h2
      simp only [Option.some.injEq] at h2
      subst h2
      exact List.sorted_insertionSort _ speeds

/-- Witness for `main_rows_sorted` at a concrete run with the network
down: the two rows come out ascending. -/
theorem main_rows_sorted_witness :
    List.Sorted (fun a b : Int × Int => a.1 ≤ b.1) [((1 : Int), (-1 : Int)), (2, -1)] :=
  main_rows_sorted noNetWorld [sampleEntry2, sampleEntry] Direction.NORTH
    SpeedType.CURRENT [(1, -1), (2, -1)] (by rfl)

/-- Membership in the logged range between two consecutive leds. -/
theorem mem_missingBetween (a b g : Int) :
    g ∈ missingBetween a b ↔ a < g ∧ g < b := by
  constructor
  · intro h
    obtain ⟨i, hi, hg⟩ := List.mem_map.mp h
    rw [List.mem_range] at hi
    omega
  · intro h
    refine List.mem_map.mpr ⟨(g - a - 1).toNat, ?_, ?_⟩
    · rw [List.mem_range]
      omega
    · omega

/-- The gap walk after `prev` collects exactly the absent indices above
`prev` and below some later led, for a strictly sorted tail. -/
theorem gapsFrom_spec (g : Int) :
    ∀ (prev : Int) (l : List Int), (prev :: l).Pairwise (· < ·) →
      (g ∈ gapsFrom prev l ↔ (prev < g ∧ (∃ b ∈ l, g < b) ∧ g ∉ l))
  | prev, [], h => by simp [gapsFrom]
  | prev, n :: rest, h => by
    rw [List.pairwise_cons] at h
    obtain ⟨hprev, htail⟩ := h
    have hpn : prev < n := hprev n (List.mem_cons_self n rest)
    have hnrest : ∀ x ∈ rest, n < x :=
      fun x hx => (List.pairwise_cons.mp htail).1 x hx
    have ih := gapsFrom_spec g n rest htail
    simp only [gapsFrom, List.mem_append, mem_missingBetween, ih,
      List.mem_cons, not_or]
    constructor
    · rintro (⟨h1, h2⟩ | ⟨h1, ⟨b, hb, hgb⟩, h3⟩)
      · exact ⟨h1, ⟨n, Or.inl rfl, h2⟩, by omega,
          fun hc => absurd (hnrest g hc) (by omega)⟩
      · exact ⟨by omega, ⟨b, Or.inr hb, hgb⟩, by omega, h3⟩
    · rintro ⟨h1, ⟨b, hb | hb, hgb⟩, hne, h4⟩
      · exact Or.inl ⟨h1, by omega⟩
      · rcases lt_trichotomy g n with hlt | heq | hgt
        · exact Or.inl ⟨h1, hlt⟩
        · exact absurd heq hne
        · exact Or.inr ⟨hgt, ⟨b, hb, hgb⟩, h4⟩

/-- The missing-led walk of a strictly sorted list collects exactly the
indices absent from the list yet strictly between two of its members. -/
theorem missingLeds_spec (l : List Int) (h : l.Pairwise (· < ·)) (g : Int) :
    g ∈ missingLeds l ↔
      ((∃ a ∈ l, a < g) ∧ (∃ b ∈ l, g < b) ∧ g ∉ l) := by
  cases l with
  | nil => simp [missingLeds]
  | cons n rest =>
    rw [missingLeds, gapsFrom_spec g n rest h]
    have hnrest : ∀ x ∈ rest, n < x :=
      fun x hx => (List.pairwise_cons.mp h).1 x hx
    simp only [List.mem_cons, not_or]
    constructor
    · rintro ⟨h1, ⟨b, hb, hgb⟩, h3⟩
      exact ⟨⟨n, Or.inl rfl, h1⟩, ⟨b, Or.inr hb, hgb⟩, by omega,
        h3⟩
    · rintro ⟨⟨a, ha, hag⟩, ⟨b, hb, hgb⟩, hne, h4⟩
      rcases ha with rfl | ha <;> rcases hb with rfl | hb
      · exact absurd hgb (by omega)
      · exact ⟨hag, ⟨b, hb, hgb⟩, h4⟩
      · exact absurd hgb (by have := hnrest a ha; omega)
      · exact ⟨by have := hnrest a ha; omega, ⟨b, hb, hgb⟩, h4⟩

/-- `refInsert` key membership: inserting a referencing led registers
exactly the new key on top of the existing ones. -/
theorem refInsert_mem_key (m : List (Int × List Int)) (r0 led r : Int) :
    (∃ leds, (r, leds) ∈ refInsert m r0 led) ↔
      ((∃ leds, (r, leds) ∈ m) ∨ r = r0) := by
  rw [refInsert]
  cases hf : m.find? (fun p => p.1 == r0) with
  | none =>
    simp only [List.mem_append, List.mem_singleton]
    constructor
    · rintro ⟨leds, hm | he⟩
      · exact Or.inl ⟨leds, hm⟩
      · injection he with h1 h2
        exact Or.inr h1
    · rintro (⟨leds, hm⟩ | rfl)
      · exact ⟨leds, Or.inl hm⟩
      · exact ⟨[led], Or.inr rfl⟩
  | some p =>
    have hp := List.find?_some hf
    have hpm := List.mem_of_find?_eq_some hf
    simp only [beq_iff_eq] at hp
    constructor
    · rintro ⟨leds, hmem⟩
      obtain ⟨q, hq, hfq⟩ := List.mem_map.mp hmem
      by_cases hq0 : (q.1 == r0) = true
      · rw [if_pos hq0] at hfq
        injection hfq with h1 h2
        exact Or.inl ⟨q.2, by rw [← h1]; exact hq⟩
      · rw [if_neg hq0] at hfq
        exact Or.inl ⟨leds, hfq ▸ hq⟩
    · rintro (⟨leds, hm⟩ | rfl)
      · by_cases hr : r = r0
        · subst hr
          refine ⟨leds ++ [led], List.mem_map.mpr ⟨(r, leds), hm, ?_⟩⟩
          rw [if_pos (by simp)]
        · refine ⟨leds, List.mem_map.mpr ⟨(r, leds), hm, ?_⟩⟩
          rw [if_neg (by simpa using hr)]
      · refine ⟨p.2 ++ [led], List.mem_map.mpr ⟨p, hpm, ?_⟩⟩
        rw [if_pos (by simpa using hp), hp]

/-- Leftovers of the reference-folding loop: exactly the registered
keys no returned target led number matches. -/
theorem attachRefs_leftover :
    ∀ (ret : List (Entry × List Int)) (m : List (Int × List Int)),
      (attachRefs ret m).2 =
        m.filter (fun p => !(ret.map (fun q => q.1.ledNum)).contains p.1)
  | [], m => by
    simp [attachRefs, List.filter_eq_self]
  | (e, leds) :: rest, m => by
    rw [attachRefs]
    cases hf : m.find? (fun p => p.1 == e.ledNum) with
    | none =>
      have hnone : ∀ p ∈ m, ¬ (p.1 == e.ledNum) = true := by
        simpa using List.find?_eq_none.mp hf
      simp only [attachRefs_leftover rest m]
      refine List.filter_congr fun p hp => ?_
      have : (p.1 == e.ledNum) = false := by
        simpa using hnone p hp
      simp [this]
    | some q =>
      simp only [attachRefs_leftover rest (m.filter (fun q2 => q2.1 != e.ledNum)),
        List.filter_filter]
      refine List.filter_congr fun p hp => ?_
      by_cases hpe : (p.1 == e.ledNum) = true
      · have h2 : p.1 = e.ledNum := by simpa using hpe
        simp [List.contains_cons, h2]
      · have h2 : ¬ p.1 = e.ledNum := by simpa using hpe
        simp [List.contains_cons, h2, bne, Bool.and_comm]

/-- Characterization of the first pruning loop when the active led
numbers are distinct: no duplicate is flagged, nothing is logged, the
seen leds are the active leds in encounter order, the non-aliasing
active entries become targets in order, and the registered reference
keys are exactly the non-zero references of active aliasing entries. -/
theorem scan_foldl_spec (d : Direction) :
    ∀ (entries : List Entry) (s : ScanState),
      ((activeEntries entries d).map Entry.ledNum).Nodup →
      (∀ e ∈ activeEntries entries d, e.ledNum ∉ s.seenLeds) →
      (entries.foldl (scanStep d) s).seenLeds
            = s.seenLeds ++ (activeEntries entries d).map Entry.ledNum ∧
        (entries.foldl (scanStep d) s).badEntries = s.badEntries ∧
        (entries.foldl (scanStep d) s).logs = s.logs ∧
        (entries.foldl (scanStep d) s).ret
            = s.ret ++ ((activeEntries entries d).filter nonAliasing).map
                (fun e => (e, [e.ledNum])) ∧
        ∀ r : Int,
          (∃ leds, (r, leds) ∈ (entries.foldl (scanStep d) s).refToLeds) ↔
            ((∃ leds, (r, leds) ∈ s.refToLeds) ∨
              ∃ e ∈ activeEntries entries d, getReference e = some r ∧ r ≠ 0)
  | [], s => by
    intro hnd hdisj
    simp [activeEntries]
  | e :: rest, s => by
    intro hnd hdisj
    by_cases hsk : skipEntry e d = true
    · have hact : activeEntries (e :: rest) d = activeEntries rest d := by
        simp [activeEntries, List.filter_cons, hsk]
      rw [hact] at hnd hdisj
      rw [List.foldl_cons, show scanStep d s e = s from by rw [scanStep, if_pos hsk]]
      have ih := scan_foldl_spec d rest s hnd hdisj
      rw [hact]
      exact ih
    · have hact : activeEntries (e :: rest) d = e :: activeEntries rest d := by
        simp [activeEntries, List.filter_cons, hsk]
      rw [hact] at hnd hdisj
      rw [List.map_cons, List.nodup_cons] at hnd
      obtain ⟨hhead, hndr⟩ := hnd
      have hel : e.ledNum ∉ s.seenLeds := hdisj e (List.mem_cons_self e _)
      have hcont : s.seenLeds.contains e.ledNum = false := by simp [hel]
      have hdisj1 : ∀ e2 ∈ activeEntries rest d,
          e2.ledNum ∉ s.seenLeds ++ [e.ledNum] := by
        intro e2 he2 hmem
        rcases List.mem_append.mp hmem with h1 | h2
        · exact hdisj e2 (List.mem_cons_of_mem _ he2) h1
        · rw [List.mem_singleton] at h2
          exact hhead (h2 ▸ List.mem_map_of_mem Entry.ledNum he2)
      rw [List.foldl_cons]
      cases href : getReference e with
      | none =>
        have hna : nonAliasing e = true := by simp [nonAliasing, href]
        have hstep : scanStep d s e =
            ⟨s.ret ++ [(e, [e.ledNum])], s.refToLeds,
              s.seenLeds ++ [e.ledNum], s.badEntries, s.logs⟩ := by
          simp [scanStep, hsk, hel, href]
        rw [hstep]
        obtain ⟨ih1, ih2, ih3, ih4, ih5⟩ := scan_foldl_spec d rest
          ⟨s.ret ++ [(e, [e.ledNum])], s.refToLeds,
            s.seenLeds ++ [e.ledNum], s.badEntries, s.logs⟩ hndr hdisj1
        refine ⟨?_, ih2, ih3, ?_, ?_⟩
        · rw [ih1, hact]
          simp
        · rw [ih4, hact]
          simp [List.filter_cons, hna]
        · intro r
          rw [ih5 r, hact]
          simp [href]
      | some r0 =>
        by_cases hr0 : r0 = 0
        · have hna : nonAliasing e = true := by simp [nonAliasing, href, hr0]
          have hstep : scanStep d s e =
              ⟨s.ret ++ [(e, [e.ledNum])], s.refToLeds,
                s.seenLeds ++ [e.ledNum], s.badEntries, s.logs⟩ := by
            simp [scanStep, hsk, hel, href, hr0]
          rw [hstep]
          obtain ⟨ih1, ih2, ih3, ih4, ih5⟩ := scan_foldl_spec d rest
            ⟨s.ret ++ [(e, [e.ledNum])], s.refToLeds,
              s.seenLeds ++ [e.ledNum], s.badEntries, s.logs⟩ hndr hdisj1
          refine ⟨?_, ih2, ih3, ?_, ?_⟩
          · rw [ih1, hact]
            simp
          · rw [ih4, hact]
            simp [List.filter_cons, hna]
          · intro r
            rw [ih5 r, hact]
            simp only [List.mem_cons]
            constructor
            · rintro (h | h)
              · exact Or.inl h
              · exact Or.inr ⟨h.choose, Or.inr h.choose_spec.1, h.choose_spec.2⟩
            · rintro (h | ⟨e2, he2 | he2, hp⟩)
              · exact Or.inl h
              · rw [he2, href] at hp
                injection hp.1 with hinj
                exact absurd (hinj ▸ hr0) hp.2
              · exact Or.inr ⟨e2, he2, hp⟩
        · have hna : nonAliasing e = false := by
            simp only [nonAliasing, href]
            simpa using hr0
          have hstep : scanStep d s e =
              ⟨s.ret, refInsert s.refToLeds r0 e.ledNum,
                s.seenLeds ++ [e.ledNum], s.badEntries, s.logs⟩ := by
            simp [scanStep, hsk, hel, href, hr0]
          rw [hstep]
          obtain ⟨ih1, ih2, ih3, ih4, ih5⟩ := scan_foldl_spec d rest
            ⟨s.ret, refInsert s.refToLeds r0 e.ledNum,
              s.seenLeds ++ [e.ledNum], s.badEntries, s.logs⟩ hndr hdisj1
          refine ⟨?_, ih2, ih3, ?_, ?_⟩
          · rw [ih1, hact]
            simp
          · rw [ih4, hact]
            simp [List.filter_cons, hna]
          · intro r
            have ih5r := ih5 r
            rw [show (⟨s.ret, refInsert s.refToLeds r0 e.ledNum,
                s.seenLeds ++ [e.ledNum], s.badEntries, s.logs⟩ : ScanState).refToLeds
                = refInsert s.refToLeds r0 e.ledNum from rfl,
              refInsert_mem_key] at ih5r
            rw [ih5r, hact]
            simp only [List.mem_cons]
            constructor
            · rintro ((h | rfl) | h)
              · exact Or.inl h
              · exact Or.inr ⟨e, Or.inl rfl, href, hr0⟩
              · exact Or.inr ⟨h.choose, Or.inr h.choose_spec.1, h.choose_spec.2⟩
            · rintro (h | ⟨e2, he2 | he2, hp⟩)
              · exact Or.inl (Or.inl h)
              · rw [he2, href] at hp
                injection hp.1 with hinj
                exact Or.inl (Or.inr hinj.symm)
              · exact Or.inr ⟨e2, he2, hp⟩

/-- C7: with missing ranges permitted, `pruneCSVEntries` can never fail
with the missing-entry error; with missing ranges disallowed (and the
active leds distinct), any gap makes the run fail with the missing-entry
error, and every gap index is logged — the raise happens only after all
gaps are reported. -/
theorem missing_range_check :
    (∀ (entries : List Entry) (d : Direction),
      (pruneCSVEntries entries d true).2 ≠ .error .missingEntry) ∧
    (∀ (entries : List Entry) (d : Direction) (g : Int),
      (d == Direction.UNKNOWN) = false →
      ((activeEntries entries d).map Entry.ledNum).Nodup →
      GapIndex entries d g →
      ((pruneCSVEntries entries d false).2 = .error .missingEntry ∧
        ∀ g2, GapIndex entries d g2 →
          missingMsg d g2 ∈ (pruneCSVEntries entries d false).1)) := by
  constructor
  · intro entries d h
    rw [pruneCSVEntries] at h
    by_cases hd : (d == Direction.UNKNOWN) = true
    · rw [if_pos hd] at h
      simp at h
    · rw [if_neg hd] at h
      by_cases hb : (entries.foldl (scanStep d) ⟨[], [], [], false, []⟩).badEntries = true
      · simp [hb] at h
      · simp only [Bool.not_eq_true] at hb
        simp [hb] at h
        split at h <;> simp at h
  · intro entries d g hd hnd hgap
    obtain ⟨hseen, hbad, hlogs, hret, href⟩ :=
      scan_foldl_spec d entries ⟨[], [], [], false, []⟩ hnd (by intro e he h2; simp at h2)
    rw [List.nil_append] at hseen
    have hpairlt :
        (pySortInts ((activeEntries entries d).map Entry.ledNum)).Pairwise (· < ·) := by
      have hsorted := List.sorted_insertionSort (fun a b : Int => a ≤ b)
        ((activeEntries entries d).map Entry.ledNum)
      have hperm := List.perm_insertionSort (fun a b : Int => a ≤ b)
        ((activeEntries entries d).map Entry.ledNum)
      have hndS : (pySortInts ((activeEntries entries d).map Entry.ledNum)).Nodup :=
        hperm.nodup_iff.mpr hnd
      exact (hsorted.and hndS).imp (fun h => lt_of_le_of_ne h.1 h.2)
    have hmemiff : ∀ x : Int,
        x ∈ pySortInts ((activeEntries entries d).map Entry.ledNum) ↔
          x ∈ (activeEntries entries d).map Entry.ledNum :=
      fun x => (List.perm_insertionSort _ _).mem_iff
    have hgap_iff : ∀ g2,
        g2 ∈ missingLeds (pySortInts ((activeEntries entries d).map Entry.ledNum)) ↔
          GapIndex entries d g2 := by
      intro g2
      rw [missingLeds_spec _ hpairlt g2, GapIndex]
      constructor
      · rintro ⟨⟨a, ha, hag⟩, ⟨b, hb, hgb⟩, hnin⟩
        exact ⟨fun hc => hnin ((hmemiff g2).mpr hc),
          ⟨a, (hmemiff a).mp ha, hag⟩, ⟨b, (hmemiff b).mp hb, hgb⟩⟩
      · rintro ⟨hnin, ⟨a, ha, hag⟩, ⟨b, hb, hgb⟩⟩
        exact ⟨⟨a, (hmemiff a).mpr ha, hag⟩, ⟨b, (hmemiff b).mpr hb, hgb⟩,
          fun hc => hnin ((hmemiff g2).mp hc)⟩
    have hmem := (hgap_iff g).mpr hgap
    have hne := List.ne_nil_of_mem hmem
    have hbad2 : (entries.foldl (scanStep d) ⟨[], [], [], false, []⟩).badEntries = false := hbad
    have hempty : (missingLeds (pySortInts
        ((activeEntries entries d).map Entry.ledNum))).isEmpty = false :=
      List.isEmpty_eq_false.mpr hne
    constructor
    · rw [pruneCSVEntries, if_neg (by simp [hd])]
      simp [hbad2, hseen, hempty]
    · intro g2 hg2
      rw [pruneCSVEntries, if_neg (by simp [hd])]
      have hlogs2 : (entries.foldl (scanStep d) ⟨[], [], [], false, []⟩).logs = [] := hlogs
      simp [hbad2, hseen, hempty, hlogs2]
      exact ⟨g2, (hgap_iff g2).mpr hg2, rfl⟩

/-- Witness for `missing_range_check` on leds 1, 2 and 4: the run fails
with the missing-entry error and the gap at 3 is logged. -/
theorem missing_range_check_witness :
    (pruneCSVEntries gapEntries Direction.NORTH false).2 = .error .missingEntry ∧
      missingMsg Direction.NORTH 3 ∈ (pruneCSVEntries gapEntries Direction.NORTH false).1 := by
  have h := missing_range_check.2 gapEntries Direction.NORTH 3 rfl (by decide)
    (by unfold GapIndex; decide)
  exact ⟨h.1, h.2 3 (by unfold GapIndex; decide)⟩

/-- C6: when some active entry's non-zero reference is dangling or
chained (its target is no active non-aliasing entry), `pruneCSVEntries`
fails with the bad-reference error, and the failure is batched: every
offending reference value is logged with its referencing leds before
the single raise. -/
theorem bad_reference_batched (entries : List Entry) (d : Direction) (r : Int)
    (hd : (d == Direction.UNKNOWN) = false)
    (hnd : ((activeEntries entries d).map Entry.ledNum).Nodup)
    (hoff : OffendingRef entries d r) :
    (pruneCSVEntries entries d true).2 = .error .badReference ∧
      ∀ r2, OffendingRef entries d r2 →
        ∃ leds, badRefMsg d r2 leds ∈ (pruneCSVEntries entries d true).1 := by
  obtain ⟨hseen, hbad, hlogs, hret, href⟩ :=
    scan_foldl_spec d entries ⟨[], [], [], false, []⟩ hnd (by intro e he h2; simp at h2)
  set s := entries.foldl (scanStep d) ⟨[], [], [], false, []⟩ with hs
  rw [List.nil_append] at hret
  have hbad2 : s.badEntries = false := hbad
  have hlogs2 : s.logs = [] := hlogs
  have hretleds : s.ret.map (fun q => q.1.ledNum)
      = ((activeEntries entries d).filter nonAliasing).map Entry.ledNum := by
    rw [hret, List.map_map]
    rfl
  have hcontiff : ∀ r2 : Int,
      ((s.ret.map (fun q => q.1.ledNum)).contains r2 = true) ↔
        ∃ e ∈ activeEntries entries d, e.ledNum = r2 ∧ nonAliasing e = true := by
    intro r2
    rw [hretleds, List.elem_iff]
    simp only [List.mem_map, List.mem_filter]
    constructor
    · rintro ⟨e2, ⟨he2, hna2⟩, hled⟩
      exact ⟨e2, he2, hled, hna2⟩
    · rintro ⟨e2, he2, hled, hna2⟩
      exact ⟨e2, ⟨he2, hna2⟩, hled⟩
  have hleft : ∀ r2,
      (∃ leds, (r2, leds) ∈ (attachRefs s.ret s.refToLeds).2) ↔
        OffendingRef entries d r2 := by
    intro r2
    rw [attachRefs_leftover]
    constructor
    · rintro ⟨leds, hmem⟩
      rw [List.mem_filter] at hmem
      obtain ⟨hm, hpred⟩ := hmem
      refine ⟨((href r2).mp ⟨leds, hm⟩).resolve_left (by simp), ?_⟩
      intro hex
      rw [(hcontiff r2).mpr hex] at hpred
      simp at hpred
    · rintro ⟨hsrc, hnex⟩
      obtain ⟨leds, hm⟩ := (href r2).mpr (Or.inr hsrc)
      refine ⟨leds, List.mem_filter.mpr ⟨hm, ?_⟩⟩
      have hnc : ¬ ((s.ret.map (fun q => q.1.ledNum)).contains r2 = true) :=
        fun hc => hnex ((hcontiff r2).mp hc)
      simpa using hnc
  obtain ⟨leds0, hmem0⟩ := (hleft r).mpr hoff
  have hne : (attachRefs s.ret s.refToLeds).2 ≠ [] := by
    intro hnil
    rw [hnil] at hmem0
    simp at hmem0
  have hempty : (attachRefs s.ret s.refToLeds).2.isEmpty = false :=
    List.isEmpty_eq_false.mpr hne
  have hres : pruneCSVEntries entries d true =
      ((attachRefs s.ret s.refToLeds).2.map (fun p => badRefMsg d p.1 p.2),
        .error .badReference) := by
    rw [pruneCSVEntries, if_neg (by simp [hd])]
    simp [← hs, hbad2, hempty, hlogs2]
  constructor
  · rw [hres]
  · intro r2 hoff2
    obtain ⟨leds2, hmem2⟩ := (hleft r2).mpr hoff2
    rw [hres]
    exact ⟨leds2, List.mem_map.mpr ⟨(r2, leds2), hmem2, rfl⟩⟩

/-- Witness for `bad_reference_batched` on `badRefEntries`: the run
fails with the bad-reference error, and both the dangling reference 5
and the chained reference 2 are logged. -/
theorem bad_reference_batched_witness :
    (pruneCSVEntries badRefEntries Direction.NORTH true).2 = .error .badReference ∧
      (∃ leds, badRefMsg Direction.NORTH 5 leds ∈
        (pruneCSVEntries badRefEntries Direction.NORTH true).1) ∧
      (∃ leds, badRefMsg Direction.NORTH 2 leds ∈
        (pruneCSVEntries badRefEntries Direction.NORTH true).1) := by
  have h := bad_reference_batched badRefEntries Direction.NORTH 5 rfl (by decide)
    (by unfold OffendingRef; decide)
  exact ⟨h.1, h.2 5 (by unfold OffendingRef; decide),
    h.2 2 (by unfold OffendingRef; decide)⟩

end FetchTomTom
